import Mathlib

/-!
Shallow embedding of the training orchestration core of src/lm/main.py
(transformer-lm). Token corpora are modelled as lists of integers; the
model/optimizer tensors are irrelevant to the verified properties and are
abstracted to opaque content values where checkpointing needs them. Python
integer arithmetic on sizes is modelled with Nat; Python slicing dataset[i:i+n]
is modelled with drop/take.
-/

namespace LM

/-- Python slice dataset[i : i + len] on a list. -/
def listSlice (l : List Int) (i len : Nat) : List Int :=
  (l.drop i).take len

/- ===== Batch sampler (src/lm/main.py lines 230-251) ===== -/

/-- Embedding of _gen_training_batch's index draws: the list
[randint(0, len(dataset) - n_ctx) for _ in range(batch_size)].
The j-th call of np.random.randint is represented by rand j; the randint
contract (value uniform in [0, len - n_ctx)) is carried as a hypothesis
rand j < len - n_ctx in the theorems. -/
def training_indices (batch_size : Nat) (rand : Nat → Nat) : List Nat :=
  (List.range batch_size).map rand

/-- Embedding of _gen_training_batch (src/lm/main.py lines 230-233):
return [dataset[idx : idx + n_ctx] for idx in indices]. -/
def gen_training_batch (dataset : List Int) (n_ctx batch_size : Nat)
    (rand : Nat → Nat) : List (List Int) :=
  (training_indices batch_size rand).map (fun idx => listSlice dataset idx n_ctx)

/-- Number of start indices produced by Python range(0, L - n_ctx, n_ctx):
the ceiling of (L - n_ctx) / n_ctx, with truncated Nat subtraction
(so 0 when L is at most n_ctx). -/
def n_valid_windows (L n_ctx : Nat) : Nat :=
  (L - n_ctx + n_ctx - 1) / n_ctx

/-- Embedding of start_indices = range(0, len(dataset) - n_ctx, n_ctx)
in _valid_batch_iter (src/lm/main.py line 237). -/
def valid_start_indices (L n_ctx : Nat) : List Nat :=
  List.range' 0 (n_valid_windows L n_ctx) n_ctx

/-- The validation windows dataset[i : i + n_ctx] for i in
range(0, len(dataset) - n_ctx, n_ctx) (src/lm/main.py line 239). -/
def valid_windows (dataset : List Int) (n_ctx : Nat) : List (List Int) :=
  (valid_start_indices dataset.length n_ctx).map (fun i => listSlice dataset i n_ctx)

/-- Embedding of the generator _batch_it (src/lm/main.py lines 244-251):
accumulates elements into a batch, yields the batch whenever its length
reaches batch_size, and after the input is exhausted always yields the
final (possibly short, possibly empty) batch. -/
def batchItGo (batch_size : Nat) : List α → List α → List (List α)
  | [], batch => [batch]
  | x :: xs, batch =>
    let batch' := batch ++ [x]
    if batch'.length = batch_size then batch' :: batchItGo batch_size xs []
    else batchItGo batch_size xs batch'

/-- Entry point of _batch_it: the accumulator starts empty. -/
def batch_it (batch_size : Nat) (l : List α) : List (List α) :=
  batchItGo batch_size l []

/-- Embedding of _valid_batch_iter (src/lm/main.py lines 236-241): the
validation windows grouped by _batch_it. -/
def valid_batch_iter (dataset : List Int) (batch_size n_ctx : Nat) :
    List (List (List Int)) :=
  batch_it batch_size (valid_windows dataset n_ctx)

/- ===== AverageMeter (src/lm/main.py lines 254-265) =====
   Python floats are modelled as rationals; statistics.mean computes the
   exact arithmetic mean via fractions internally. -/

structure AverageMeter where
  values : List ℚ
deriving DecidableEq

/-- AverageMeter(): self.values = []. -/
def AverageMeter.init : AverageMeter := ⟨[]⟩

/-- update(value): self.values.append(value). -/
def AverageMeter.update (m : AverageMeter) (value : ℚ) : AverageMeter :=
  ⟨m.values ++ [value]⟩

/-- mean(): statistics.mean(self.values), the arithmetic mean. -/
def AverageMeter.mean (m : AverageMeter) : ℚ :=
  m.values.sum / m.values.length

/-- reset(): self.values.clear(). -/
def AverageMeter.reset (_m : AverageMeter) : AverageMeter := ⟨[]⟩

/- ===== Checkpoint store: save (src/lm/main.py lines 206-215) =====
   The run directory is modelled by the four checkpoint file slots it can
   hold: model.pt, model-prev.pt, optim.pt, optim-prev.pt. M is the type of
   model.pt contents (the serialized state dict together with the step
   counter), O the type of optim.pt contents; a slot is none when the file
   does not exist. -/

structure CkptDir (M O : Type) where
  modelFile : Option M
  modelPrev : Option M
  optimFile : Option O
  optimPrev : Option O
deriving DecidableEq

/-- Embedding of save(): on a non-primary process it returns immediately and
writes nothing. On the primary, for each of model.pt and optim.pt, if the
file exists it is first copied over the -prev sibling; then the new contents
are written to both files. -/
def save (is_main : Bool) (modelState : M) (optimState : O)
    (d : CkptDir M O) : CkptDir M O :=
  if is_main then
    { modelFile := some modelState
      modelPrev := if d.modelFile.isSome then d.modelFile else d.modelPrev
      optimFile := some optimState
      optimPrev := if d.optimFile.isSome then d.optimFile else d.optimPrev }
  else d

/-- N consecutive save() calls, the k-th call writing the contents gens k
(model content, optimizer content), applied left to right. -/
def saveRun (is_main : Bool) (gens : List (M × O)) (d : CkptDir M O) :
    CkptDir M O :=
  gens.foldl (fun acc g => save is_main g.1 g.2 acc) d

/- ===== Topology setup check (src/lm/main.py lines 57-62) ===== -/

/-- Embedding of the startup topology arithmetic of main(): world_size is
max(1, n_devices); when g_accum_gradients is not given it defaults to
world_size; the assert g_accum_gradients % world_size == 0 fires before any
device work; on success the per-rank share accum_gradients =
g_accum_gradients // world_size is returned. A Python AssertionError at this
point is the configuration error of the spec. -/
def topology_setup (g_accum_gradients : Option Nat) (n_devices : Nat) :
    Except String Nat :=
  let world_size := max 1 n_devices
  let g := g_accum_gradients.getD world_size
  if g % world_size = 0 then Except.ok (g / world_size)
  else Except.error ("AssertionError: g_accum_gradients % world_size == 0")

/- ===== Run directory cleaning (src/lm/main.py lines 66-73) ===== -/

/-- Outcome of the clean-flag handling on the primary: either the directory
tree is removed by shutil.rmtree, or nothing is removed, or the assert on
the .lm marker fails and startup aborts before any deletion. -/
inductive CleanOutcome where
  | removed
  | kept
  | assertionError
deriving DecidableEq

/-- Embedding of the clean handling in main(): only the primary touches the
directory; if clean is set and the directory exists, the .lm marker must
exist (assert run_path_mark.exists()) or startup fails, and only then is
shutil.rmtree(run_path) executed. -/
def clean_run_dir (is_main clean dirExists markExists : Bool) : CleanOutcome :=
  if is_main && clean && dirExists then
    if markExists then .removed else .assertionError
  else .kept

/- ===== Training loop controller (src/lm/main.py lines 126-227) ===== -/

/-- Static configuration of the train() loop. stepTokens is
n_ctx * batch_size * g_accum_gradients; maxTokens = 0 models Python
max_tokens=None (the code guards with the truthiness test if max_tokens).
interruptAt models a KeyboardInterrupt raised inside train_step() of the
k-th executed optimizer update (none: no interrupt arrives). -/
structure LoopConfig where
  epochs : Nat
  epochSize : Nat
  saveEvery : Nat
  validateEvery : Nat
  logEvery : Nat
  stepTokens : Nat
  maxTokens : Nat
  isMain : Bool
  interruptAt : Option Nat
deriving DecidableEq

/-- Dynamic counters of the loop: the 1-based step counter, and counts of
executed train_step calls, save() file writes, validations performed by the
primary, and log flushes (each flush resets the loss meter). -/
structure LoopState where
  step : Nat
  trainSteps : Nat
  saves : Nat
  validates : Nat
  logFlushes : Nat
deriving DecidableEq

/-- The state at step = 1 before the first iteration (src/lm/main.py line 126). -/
def initState : LoopState := ⟨1, 0, 0, 0, 0⟩

/-- How the loop in train() finished: ran all epochs to completion, returned
early on the token budget (graceful stop), or was interrupted by
KeyboardInterrupt. -/
inductive LoopExit where
  | completed
  | budgetStop
  | interrupted
deriving DecidableEq

/-- save() gated on the primary (save returns immediately when not is_main). -/
def doSave (cfg : LoopConfig) (s : LoopState) : LoopState :=
  if cfg.isMain then { s with saves := s.saves + 1 } else s

/-- validate() gated on the primary (validate returns when not is_main). -/
def doValidate (cfg : LoopConfig) (s : LoopState) : LoopState :=
  if cfg.isMain then { s with validates := s.validates + 1 } else s

/-- One iteration of the inner per-step loop of train() (src/lm/main.py
lines 157-177): save when step is a multiple of save_every; if the token
budget is set and step * step_tokens >= max_tokens, save, validate and
return; otherwise run train_step (where a pending interrupt fires), increment
step, flush the log on the primary when step is a multiple of log_every, and
validate when step is a multiple of validate_every. Returns the new state
and none to continue, or the state with the exit kind. -/
def innerIter (cfg : LoopConfig) (s : LoopState) :
    LoopState × Option LoopExit :=
  let s := if s.step % cfg.saveEvery = 0 then doSave cfg s else s
  if cfg.maxTokens ≠ 0 ∧ cfg.maxTokens ≤ s.step * cfg.stepTokens then
    (doValidate cfg (doSave cfg s), some .budgetStop)
  else if cfg.interruptAt = some s.trainSteps then
    (s, some .interrupted)
  else
    let s := { s with trainSteps := s.trainSteps + 1, step := s.step + 1 }
    let s := if cfg.isMain ∧ s.step % cfg.logEvery = 0 then
      { s with logFlushes := s.logFlushes + 1 } else s
    let s := if s.step % cfg.validateEvery = 0 then doValidate cfg s else s
    (s, none)

/-- The inner loop for _ in epoch_pbar, running n iterations unless one of
them returns or raises. -/
def runInner (cfg : LoopConfig) : Nat → LoopState → LoopState × Option LoopExit
  | 0, s => (s, none)
  | n + 1, s =>
    match innerIter cfg s with
    | (s', some e) => (s', some e)
    | (s', none) => runInner cfg n s'

/-- The outer loop for epoch in trange(1, epochs + 1): each epoch runs
epoch_size inner iterations and then unconditionally saves and validates
(src/lm/main.py lines 178-180). -/
def runEpochs (cfg : LoopConfig) : Nat → LoopState → LoopState × Option LoopExit
  | 0, s => (s, none)
  | e + 1, s =>
    match runInner cfg cfg.epochSize s with
    | (s', some ex) => (s', some ex)
    | (s', none) => runEpochs cfg e (doValidate cfg (doSave cfg s'))

/-- train() as called from main(): starts from step 1 with all counters zero
and runs cfg.epochs epochs. -/
def train (cfg : LoopConfig) : LoopState × Option LoopExit :=
  runEpochs cfg cfg.epochs initState

/-- Result of the whole try/except around train() in main()
(src/lm/main.py lines 220-227). -/
structure RunResult where
  state : LoopState
  exitKind : LoopExit
  printedInterruptNotice : Bool
  exitStatus : Nat
deriving DecidableEq

/-- Embedding of the try: train() except KeyboardInterrupt handler: on
interruption the primary prints the interrupted-saving notice, saves, and
exits with status 1; a non-primary process stops without saving; any
non-interrupted completion falls through with status 0. -/
def run_train (cfg : LoopConfig) : RunResult :=
  match train cfg with
  | (s, some .interrupted) =>
    if cfg.isMain then
      ⟨doSave cfg s, .interrupted, true, 1⟩
    else
      ⟨s, .interrupted, false, 0⟩
  | (s, some .budgetStop) => ⟨s, .budgetStop, false, 0⟩
  | (s, _) => ⟨s, .completed, false, 0⟩

/- ===== Validate-only mode (src/lm/main.py lines 217-219) ===== -/

/-- What the only_validate branch of main() observably does: the text passed
to print and the number of times validate() is invoked. -/
structure OnlyValidateResult where
  printed : Option String
  validateCalls : Nat
deriving DecidableEq

/-- Embedding of the only_validate branch as written in the source: the
argument of print is a plain string literal (it lacks the f prefix), so the
brace expression inside it is never evaluated and validate() is never
called; a non-primary process prints nothing. -/
def only_validate_branch (is_main : Bool) : OnlyValidateResult :=
  if is_main then ⟨some ("Validation loss: \x7bvalidate():.4f\x7d"), 0⟩
  else ⟨none, 0⟩

/- ===== Theorems ===== -/

/-- C6: on a fresh AverageMeter, mean() after update(a); update(b) returns
(a + b) / 2, and after reset(), a subsequent update(c); mean() returns
exactly c, with no contribution from observations recorded before the
reset. -/
theorem averageMeter_mean_reset (a b c : ℚ) (m : AverageMeter) :
    ((AverageMeter.init.update a).update b).mean = (a + b) / 2 ∧
    ((m.reset).update c).mean = c := by
  constructor
  · show ([a, b].sum : ℚ) / ([a, b].length : ℚ) = (a + b) / 2
    norm_num
  · show ([c].sum : ℚ) / ([c].length : ℚ) = c
    norm_num

/-- C5: the startup topology setup succeeds exactly when g_accum_gradients
is divisible by world_size (the assert at src/lm/main.py line 61, reached
before any device work at lines 106-124), and for world_size in 1, 2, 4, 8
with g_accum_gradients a multiple of world_size, the configuration error is
not raised. -/
theorem topology_setup_divisibility (g ws k : Nat) (hws : 0 < ws) :
    ((topology_setup (some g) ws).isOk = true ↔ g % ws = 0) ∧
    (ws ∈ ([1, 2, 4, 8] : List Nat) →
      (topology_setup (some (k * ws)) ws).isOk = true) := by
  have hmax : max 1 ws = ws := by omega
  constructor
  · simp only [topology_setup, Option.getD, hmax]
    by_cases h : g % ws = 0 <;> simp [h, Except.isOk, Except.toBool]
  · intro _
    simp only [topology_setup, Option.getD, hmax]
    have h : k * ws % ws = 0 := Nat.mul_mod_left k ws
    simp [h, Except.isOk, Except.toBool]

/-- C5 witness: at world_size 4 the check accepts 8 = 2 * 4 and accepts
exactly the multiples of 4. -/
theorem topology_setup_divisibility_witness :
    (topology_setup (some 8) 4).isOk = true ∧ 8 % 4 = 0 ∧
    (topology_setup (some (2 * 4)) 4).isOk = true := by
  have h := topology_setup_divisibility 8 4 2 (by decide)
  exact ⟨h.1.mpr (by decide), by decide, h.2 (by decide)⟩

/-- C9: with the clean flag set and the directory existing, the tree is
removed only when the .lm marker exists; when the marker is absent the
assert fails and startup aborts before any deletion. -/
theorem clean_run_dir_safe (im c de me : Bool) :
    (clean_run_dir im c de me = CleanOutcome.removed → me = true) ∧
    (im = true → c = true → de = true → me = false →
      clean_run_dir im c de me = CleanOutcome.assertionError) := by
  cases im <;> cases c <;> cases de <;> cases me <;>
    simp [clean_run_dir]

/-- C9 witness: on the primary with clean set, an existing directory
lacking the .lm marker makes startup fail rather than delete. -/
theorem clean_run_dir_safe_witness :
    clean_run_dir true true true false = CleanOutcome.assertionError :=
  (clean_run_dir_safe true true true false).2 rfl rfl rfl rfl

/-- C8: what the only_validate branch of main() actually does on the
primary (src/lm/main.py line 219): the print argument is a plain string
literal missing the f prefix, so the literal text is printed and validate()
is invoked zero times — no validation pass happens, contradicting the
intended INIT to VALIDATING_ONLY to DONE behavior. -/
theorem only_validate_branch_no_validation :
    (only_validate_branch true).validateCalls = 0 ∧
    (only_validate_branch true).printed =
      some ("Validation loss: \x7bvalidate():.4f\x7d") :=
  ⟨rfl, rfl⟩

/-- C3: after any N >= 3 consecutive save() calls on the primary (here the
last three write generations gx, gy, gz), the directory holds exactly the
two most recent generations: model.pt and optim.pt hold gz, the -prev
siblings hold gy; the generation gx from 3 calls ago is no longer on disk
whenever its contents differ from the two survivors; and save() on a
non-primary process writes nothing. -/
theorem save_keeps_two_generations {M O : Type} (d : CkptDir M O)
    (l gens : List (M × O)) (gx gy gz : M × O) :
    saveRun true (l ++ [gx, gy, gz]) d =
      ⟨some gz.1, some gy.1, some gz.2, some gy.2⟩ ∧
    (gx.1 ≠ gy.1 → gx.1 ≠ gz.1 →
      (saveRun true (l ++ [gx, gy, gz]) d).modelFile ≠ some gx.1 ∧
      (saveRun true (l ++ [gx, gy, gz]) d).modelPrev ≠ some gx.1) ∧
    saveRun false gens d = d := by
  have hmain : saveRun true (l ++ [gx, gy, gz]) d =
      ⟨some gz.1, some gy.1, some gz.2, some gy.2⟩ := by
    simp [saveRun, List.foldl_append, save]
  refine ⟨hmain, ?_, ?_⟩
  · intro hxy hxz
    rw [hmain]
    constructor
    · simp only [ne_eq, Option.some.injEq]
      exact fun h => hxz h.symm
    · simp only [ne_eq, Option.some.injEq]
      exact fun h => hxy h.symm
  · induction gens with
    | nil => rfl
    | cons g gs ih =>
      show saveRun false gs (save false g.1 g.2 d) = d
      simpa [save] using ih

/-- C3 witness: three concrete saves of generations (1,10), (2,20), (3,30)
over an empty directory leave exactly generations 3 and 2 on disk. -/
theorem save_keeps_two_generations_witness :
    saveRun true ([] ++ [((1 : Nat), (10 : Nat)), (2, 20), (3, 30)])
        (⟨none, none, none, none⟩ : CkptDir Nat Nat) =
      ⟨some 3, some 2, some 30, some 20⟩ ∧
    (saveRun true ([] ++ [((1 : Nat), (10 : Nat)), (2, 20), (3, 30)])
        (⟨none, none, none, none⟩ : CkptDir Nat Nat)).modelFile ≠ some 1 := by
  have h := save_keeps_two_generations
    (⟨none, none, none, none⟩ : CkptDir Nat Nat) [] [(5, 6)]
    ((1 : Nat), (10 : Nat)) (2, 20) (3, 30)
  exact ⟨h.1, (h.2.1 (by decide) (by decide)).1⟩

/-- C4: the training batch sampler draws batch_size offsets via its random
source (each draw constrained to randint's range [0, L - n_ctx)) and
returns batch_size contiguous slices of exact length n_ctx; every slice
occurs in the corpus at its drawn offset, entirely within [0, L). -/
theorem gen_training_batch_bounds (dataset : List Int) (n_ctx batch_size : Nat)
    (rand : Nat → Nat) (hL : n_ctx < dataset.length)
    (hr : ∀ j, rand j < dataset.length - n_ctx) :
    (gen_training_batch dataset n_ctx batch_size rand).length = batch_size ∧
    ∀ b ∈ gen_training_batch dataset n_ctx batch_size rand,
      b.length = n_ctx ∧
      ∃ j < batch_size, b = listSlice dataset (rand j) n_ctx ∧
        rand j + n_ctx ≤ dataset.length ∧
        dataset = dataset.take (rand j) ++ b ++ dataset.drop (rand j + n_ctx) := by
  constructor
  · simp [gen_training_batch, training_indices]
  · intro b hb
    simp only [gen_training_batch, training_indices, List.map_map, List.mem_map,
      List.mem_range, Function.comp] at hb
    obtain ⟨j, hj, rfl⟩ := hb
    have hij : rand j + n_ctx ≤ dataset.length := by
      have := hr j; omega
    have hlen : (listSlice dataset (rand j) n_ctx).length = n_ctx := by
      simp [listSlice]; omega
    refine ⟨hlen, j, hj, rfl, hij, ?_⟩
    calc dataset = dataset.take (rand j) ++ dataset.drop (rand j) :=
          (List.take_append_drop _ _).symm
    _ = dataset.take (rand j) ++
          ((dataset.drop (rand j)).take n_ctx ++ (dataset.drop (rand j)).drop n_ctx) := by
        congr 1
        exact (List.take_append_drop _ _).symm
    _ = dataset.take (rand j) ++ listSlice dataset (rand j) n_ctx ++
          dataset.drop (rand j + n_ctx) := by
        rw [List.drop_drop, ← List.append_assoc]
        rfl

/-- C4 witness: corpus of length 5, n_ctx 2, batch_size 2, every draw 1:
the batch has 2 slices and the drawn slice has length 2. -/
theorem gen_training_batch_bounds_witness :
    (gen_training_batch [0, 1, 2, 3, 4] 2 2 (fun _ => 1)).length = 2 ∧
    (listSlice [0, 1, 2, 3, 4] 1 2).length = 2 := by
  have h := gen_training_batch_bounds [0, 1, 2, 3, 4] 2 2 (fun _ => 1)
    (by norm_num) (fun _ => by norm_num)
  exact ⟨h.1, (h.2 (listSlice [0, 1, 2, 3, 4] 1 2) (by decide)).1⟩

/-- Helper: batchItGo always produces at least one batch and its final batch
has length (acc.length + l.length) % batch_size, provided the accumulator is
shorter than batch_size and batch_size is positive. -/
theorem batchItGo_last_length {α : Type} (bs : Nat) (hbs : 0 < bs) :
    ∀ (l acc : List α), acc.length < bs →
      ∃ bls last, batchItGo bs l acc = bls ++ [last] ∧
        last.length = (acc.length + l.length) % bs := by
  intro l
  induction l with
  | nil =>
    intro acc hacc
    exact ⟨[], acc, rfl, by simp [Nat.mod_eq_of_lt hacc]⟩
  | cons x xs ih =>
    intro acc hacc
    by_cases h : (acc ++ [x]).length = bs
    · obtain ⟨bls, last, heq, hlen⟩ := ih [] (by simpa using hbs)
      refine ⟨(acc ++ [x]) :: bls, last, ?_, ?_⟩
      · simp only [batchItGo, h, if_pos rfl, heq]
        rfl
      · rw [hlen]
        have h2 : acc.length + (x :: xs).length = xs.length + bs := by
          simp at h ⊢; omega
        rw [h2, Nat.add_mod_right]
        simp
    · obtain ⟨bls, last, heq, hlen⟩ := ih (acc ++ [x]) (by simp at h ⊢; omega)
      refine ⟨bls, last, ?_, ?_⟩
      · simpa only [batchItGo, h, if_neg h] using heq
      · rw [hlen]
        have h2 : (acc ++ [x]).length + xs.length = acc.length + (x :: xs).length := by
          simp; omega
        rw [h2]

/-- C10: _batch_it always yields a trailing batch even when empty: whenever
the input length is zero or a positive multiple of batch_size, the last
yielded batch is the empty list; in particular a validation corpus no longer
than n_ctx produces no windows, and get_valid_loss's iteration receives the
single empty batch. -/
theorem batch_it_final_batch_empty {α : Type} (bs : Nat) (l : List α)
    (dataset : List Int) (n_ctx : Nat)
    (hbs : 0 < bs) (hdvd : bs ∣ l.length) (hshort : dataset.length ≤ n_ctx) :
    (∃ bls, batch_it bs l = bls ++ [([] : List α)]) ∧
    valid_batch_iter dataset bs n_ctx = [[]] := by
  constructor
  · obtain ⟨bls, last, heq, hlen⟩ :=
      batchItGo_last_length bs hbs l [] (by simpa using hbs)
    have hz : last.length = 0 := by
      simp only [List.length_nil, Nat.zero_add] at hlen
      rw [hlen]
      exact Nat.mod_eq_zero_of_dvd hdvd
    exact ⟨bls, by rw [batch_it, heq, List.length_eq_zero.mp hz]⟩
  · have hn : n_valid_windows dataset.length n_ctx = 0 := by
      unfold n_valid_windows
      rcases Nat.eq_zero_or_pos n_ctx with h0 | hpos
      · simp [h0]
      · have h1 : dataset.length - n_ctx = 0 := by omega
        rw [h1]
        exact Nat.div_eq_of_lt (by omega)
    simp [valid_batch_iter, valid_windows, valid_start_indices, hn,
      batch_it, batchItGo]

/-- C10 witness: a validation corpus of 2 tokens with n_ctx 3 hands the
loss computation the single empty batch, and grouping four elements in
batches of two yields the trailing empty batch. -/
theorem batch_it_final_batch_empty_witness :
    valid_batch_iter [1, 2] 2 3 = [[]] ∧
    batch_it 2 [0, 1, 2, 3] = [[0, 1], [2, 3], ([] : List Nat)] := by
  have h := batch_it_final_batch_empty 2 [0, 1, 2, 3] [1, 2] 3
    (by decide) (by decide) (by decide)
  exact ⟨h.2, by decide⟩

/-- Helper: position below the ceiling division used by n_valid_windows is
the same as the corresponding multiple being below the range stop. -/
theorem lt_ceilDiv_iff (m C k : Nat) (hC : 0 < C) :
    k < (m + C - 1) / C ↔ k * C < m := by
  rw [Nat.lt_iff_add_one_le, Nat.le_div_iff_mul_le hC]
  have h2 : (k + 1) * C = k * C + C := by ring
  omega

/-- C2 (amended): the validation iterator visits windows starting at
offsets 0, n_ctx, 2 * n_ctx, ..., strictly increasing (so in order, exactly
once, non-overlapping and gap-free), each window of exact length n_ctx, and
the total number of covered positions is n_ctx * ceil((L - n_ctx) / n_ctx)
(with truncated subtraction), the number of multiples of n_ctx strictly
below L - n_ctx times n_ctx. -/
theorem valid_windows_partition (dataset : List Int) (n_ctx : Nat)
    (hC : 0 < n_ctx) :
    valid_start_indices dataset.length n_ctx =
      (List.range (n_valid_windows dataset.length n_ctx)).map (fun k => k * n_ctx) ∧
    List.Pairwise (· < ·) (valid_start_indices dataset.length n_ctx) ∧
    (∀ w ∈ valid_windows dataset n_ctx, w.length = n_ctx) ∧
    ((valid_windows dataset n_ctx).map List.length).sum =
      n_ctx * n_valid_windows dataset.length n_ctx := by
  have ha : valid_start_indices dataset.length n_ctx =
      (List.range (n_valid_windows dataset.length n_ctx)).map (fun k => k * n_ctx) := by
    apply List.ext_getElem
    · simp [valid_start_indices]
    · intro k h1 h2
      simp [valid_start_indices, List.getElem_range', Nat.mul_comm]
  have hstart : ∀ i ∈ valid_start_indices dataset.length n_ctx,
      i + n_ctx ≤ dataset.length := by
    intro i hi
    rw [ha] at hi
    simp only [List.mem_map, List.mem_range] at hi
    obtain ⟨k, hk, rfl⟩ := hi
    have := (lt_ceilDiv_iff (dataset.length - n_ctx) n_ctx k hC).mp hk
    omega
  have hw : ∀ w ∈ valid_windows dataset n_ctx, w.length = n_ctx := by
    intro w hwm
    simp only [valid_windows, List.mem_map] at hwm
    obtain ⟨i, hi, rfl⟩ := hwm
    have := hstart i hi
    simp [listSlice]
    omega
  refine ⟨ha, ?_, hw, ?_⟩
  · rw [ha, List.pairwise_map]
    exact (List.pairwise_lt_range _).imp
      (fun hab => (Nat.mul_lt_mul_right hC).mpr hab)
  · have hrep : (valid_windows dataset n_ctx).map List.length =
        List.replicate (n_valid_windows dataset.length n_ctx) n_ctx := by
      rw [List.eq_replicate_iff]
      constructor
      · simp [valid_windows, valid_start_indices]
      · intro b hb
        simp only [List.mem_map] at hb
        obtain ⟨w, hwm, rfl⟩ := hb
        exact hw w hwm
    rw [hrep, List.sum_replicate, smul_eq_mul, Nat.mul_comm]

/-- C2 witness: a 5-token corpus with n_ctx 2 has strictly increasing
window offsets, covers 2 * 2 positions, and its first window has length 2. -/
theorem valid_windows_partition_witness :
    List.Pairwise (· < ·)
      (valid_start_indices ([0, 1, 2, 3, 4] : List Int).length 2) ∧
    ((valid_windows [0, 1, 2, 3, 4] 2).map List.length).sum =
      2 * n_valid_windows ([0, 1, 2, 3, 4] : List Int).length 2 ∧
    (listSlice [0, 1, 2, 3, 4] 0 2).length = 2 := by
  have h := valid_windows_partition [0, 1, 2, 3, 4] 2 (by decide)
  exact ⟨h.2.1, h.2.2.2, h.2.2.1 (listSlice [0, 1, 2, 3, 4] 0 2) (by decide)⟩

/-- C2 counterexample: for the 4-token corpus with n_ctx 2 the iterator
covers 2 positions, but the claimed formula C * floor((L - C) / C + 1)
gives 4, so the claim as stated is false. -/
theorem valid_windows_total_counterexample :
    ¬ (((valid_windows ([0, 1, 2, 3] : List Int) 2).map List.length).sum =
        2 * ((([0, 1, 2, 3] : List Int).length - 2) / 2 + 1)) := by
  decide

/-- Helper: one inner iteration that continues consumes one unit of fuel. -/
theorem runInner_cons (cfg : LoopConfig) (n : Nat) (s s' : LoopState)
    (h : innerIter cfg s = (s', none)) :
    runInner cfg (n + 1) s = runInner cfg n s' := by
  rw [runInner, h]

/-- Helper: one inner iteration that returns or raises ends the loop. -/
theorem runInner_stop (cfg : LoopConfig) (n : Nat) (s s' : LoopState)
    (e : LoopExit) (h : innerIter cfg s = (s', some e)) :
    runInner cfg (n + 1) s = (s', some e) := by
  rw [runInner, h]

/-- Helper: a loop of at least three iterations whose first two continue and
whose third returns ends with the third iteration's result. -/
theorem runInner_three (cfg : LoopConfig) (n : Nat) (hn : 3 ≤ n)
    (s0 s1 s2 s3 : LoopState) (e : LoopExit)
    (h1 : innerIter cfg s0 = (s1, none))
    (h2 : innerIter cfg s1 = (s2, none))
    (h3 : innerIter cfg s2 = (s3, some e)) :
    runInner cfg n s0 = (s3, some e) := by
  obtain ⟨m, rfl⟩ : ∃ m, n = m + 3 := ⟨n - 3, by omega⟩
  rw [show m + 3 = m + 2 + 1 from rfl, runInner_cons cfg (m + 2) s0 s1 h1,
    show m + 2 = m + 1 + 1 from rfl, runInner_cons cfg (m + 1) s1 s2 h2]
  exact runInner_stop cfg m s2 s3 e h3

/-- The configuration of the token-budget scenario: max_tokens is exactly
3 * step_tokens, log_every is the default 1, the primary process, no
interrupt; epochs, epoch_size and the save/validate cadences stay free. -/
def budgetCfg (T e es se ve : Nat) : LoopConfig :=
  ⟨e, es, se, ve, 1, T, 3 * T, true, none⟩

/-- C1 (amended): with max_tokens = 3 * step_tokens, the loop halts via the
token-budget branch after exactly 2 optimizer updates — the check compares
the 1-based step counter (which is then 3) against the budget before
executing the step — performing exactly one checkpoint save and one
validation at the stop, and the process exits with status 0. -/
theorem budget_stop_after_two_steps (T e es se ve : Nat)
    (hT : 0 < T) (he : 1 ≤ e) (hes : 3 ≤ es) (hse : 3 < se) (hve : 3 < ve) :
    (run_train (budgetCfg T e es se ve)).exitKind = LoopExit.budgetStop ∧
    (run_train (budgetCfg T e es se ve)).state.trainSteps = 2 ∧
    (run_train (budgetCfg T e es se ve)).state.saves = 1 ∧
    (run_train (budgetCfg T e es se ve)).state.validates = 1 ∧
    (run_train (budgetCfg T e es se ve)).exitStatus = 0 := by
  have hm1 : (1 : Nat) % se = 1 := Nat.mod_eq_of_lt (by omega)
  have hm2 : (2 : Nat) % se = 2 := Nat.mod_eq_of_lt (by omega)
  have hm3 : (3 : Nat) % se = 3 := Nat.mod_eq_of_lt (by omega)
  have hv2 : (2 : Nat) % ve = 2 := Nat.mod_eq_of_lt (by omega)
  have hv3 : (3 : Nat) % ve = 3 := Nat.mod_eq_of_lt (by omega)
  have hb0 : 3 * T ≠ 0 := by omega
  have hb1 : ¬ 3 * T ≤ 1 * T := by omega
  have hb2 : ¬ 3 * T ≤ 2 * T := by omega
  have h1 : innerIter (budgetCfg T e es se ve) initState =
      (⟨2, 1, 0, 0, 1⟩, none) := by
    simp [innerIter, budgetCfg, initState, doSave, doValidate,
      hm1, hv2, hb0, hb1]
    omega
  have h2 : innerIter (budgetCfg T e es se ve) ⟨2, 1, 0, 0, 1⟩ =
      (⟨3, 2, 0, 0, 2⟩, none) := by
    simp [innerIter, budgetCfg, doSave, doValidate, hm2, hv3, hb0, hb2]
  have h3 : innerIter (budgetCfg T e es se ve) ⟨3, 2, 0, 0, 2⟩ =
      (⟨3, 2, 1, 1, 2⟩, some LoopExit.budgetStop) := by
    simp [innerIter, budgetCfg, doSave, doValidate, hm3, hb0]
  have hinner : runInner (budgetCfg T e es se ve) es initState =
      (⟨3, 2, 1, 1, 2⟩, some LoopExit.budgetStop) :=
    runInner_three _ es hes _ _ _ _ _ h1 h2 h3
  obtain ⟨e', rfl⟩ : ∃ e', e = e' + 1 := ⟨e - 1, by omega⟩
  have htrain : train (budgetCfg T (e' + 1) es se ve) =
      (⟨3, 2, 1, 1, 2⟩, some LoopExit.budgetStop) := by
    show runEpochs (budgetCfg T (e' + 1) es se ve) (e' + 1) initState = _
    rw [runEpochs]
    rw [show (budgetCfg T (e' + 1) es se ve).epochSize = es from rfl, hinner]
  simp [run_train, htrain]

/-- C1 witness: step_tokens 8, one epoch of five steps, default cadences
1000: the run budget-stops with 2 train steps, one save, one validation,
status 0. -/
theorem budget_stop_after_two_steps_witness :
    (run_train (budgetCfg 8 1 5 1000 1000)).exitKind = LoopExit.budgetStop ∧
    (run_train (budgetCfg 8 1 5 1000 1000)).state.trainSteps = 2 ∧
    (run_train (budgetCfg 8 1 5 1000 1000)).state.saves = 1 ∧
    (run_train (budgetCfg 8 1 5 1000 1000)).state.validates = 1 ∧
    (run_train (budgetCfg 8 1 5 1000 1000)).exitStatus = 0 :=
  budget_stop_after_two_steps 8 1 5 1000 1000
    (by decide) (by decide) (by decide) (by decide) (by decide)

/-- C1 counterexample: in the concrete budget scenario the loop halts via
the budget branch having executed 2 optimizer updates, not 3. -/
theorem budget_stop_counterexample :
    (run_train (budgetCfg 8 1 5 1000 1000)).exitKind = LoopExit.budgetStop ∧
    (run_train (budgetCfg 8 1 5 1000 1000)).state.trainSteps ≠ 3 := by
  decide

/-- C7: whenever train() ends with a KeyboardInterrupt, the primary prints
the interrupted-saving notice, performs one immediate checkpoint save, and
exits with status 1, while a non-primary worker stops with its state
untouched, no notice, no save, and status 0. -/
theorem interrupt_checkpoint_exit (cfg : LoopConfig) (s : LoopState)
    (h : train cfg = (s, some LoopExit.interrupted)) :
    (cfg.isMain = true →
      (run_train cfg).printedInterruptNotice = true ∧
      (run_train cfg).state.saves = s.saves + 1 ∧
      (run_train cfg).exitStatus = 1) ∧
    (cfg.isMain = false →
      (run_train cfg).state = s ∧
      (run_train cfg).printedInterruptNotice = false ∧
      (run_train cfg).exitStatus = 0) := by
  constructor
  · intro hm
    simp [run_train, h, doSave, hm]
  · intro hm
    simp [run_train, h, doSave, hm]

/-- The configuration of the interruption scenario: no token budget, an
interrupt arriving inside the second optimizer update, on the primary. -/
def interruptCfg : LoopConfig := ⟨1, 5, 1000, 1000, 1, 4, 0, true, some 1⟩

/-- C7 witness: a primary run interrupted during the second update prints
the notice, saves once, and exits with status 1. -/
theorem interrupt_checkpoint_exit_witness :
    (run_train interruptCfg).printedInterruptNotice = true ∧
    (run_train interruptCfg).state.saves =
      (⟨2, 1, 0, 0, 1⟩ : LoopState).saves + 1 ∧
    (run_train interruptCfg).exitStatus = 1 :=
  (interrupt_checkpoint_exit interruptCfg ⟨2, 1, 0, 0, 1⟩ (by decide)).1 rfl

end LM
